import Mathlib

/-
Verification of the slack2discord core: a shallow embedding in Lean 4 of the
ingestion/transformation code in `slack2discord/parser.py` and
`slack2discord/message.py`, and of the delivery pipeline in
`slack2discord/client.py`.

Python `dict` values keyed by message timestamps are modelled as association
lists (`List (κ × ν)`) in insertion order, with lookup returning the binding
of the (unique) key, insertion overwriting in place when the key is present
and appending at the end otherwise — exactly the observable behaviour of a
CPython `dict`.

Python `float` timestamps are modelled as rationals: the code only ever
parses, stores, compares and sorts them, so the order structure is all that
matters.
-/

namespace Slack2Discord

/-! ### A model of the observable behaviour of a Python `dict` -/

/-- Lookup in an association list modelling a Python `dict`:
the first binding of the key (keys are unique in a real `dict`). -/
def pyLookup {κ ν : Type} [DecidableEq κ] (k : κ) : List (κ × ν) → Option ν
  | [] => none
  | (k1, v1) :: rest => if k1 = k then some v1 else pyLookup k rest

/-- `d[k] = v` on a Python `dict`: overwrite in place if the key is present
(keeping its position, as CPython does), append at the end otherwise. -/
def pyInsert {κ ν : Type} [DecidableEq κ] (k : κ) (v : ν) : List (κ × ν) → List (κ × ν)
  | [] => [(k, v)]
  | (k1, v1) :: rest => if k1 = k then (k1, v) :: rest else (k1, v1) :: pyInsert k v rest

/-- `d.keys()` of a Python `dict`, in insertion order. -/
def pyKeys {κ ν : Type} (d : List (κ × ν)) : List κ := d.map Prod.fst

/-! ### Sorting (`sorted(...)` in Python) -/

/-- `sorted(keys)` in Python: sort a list of timestamps ascending. -/
def sortKeys (l : List ℚ) : List ℚ := List.insertionSort (· ≤ ·) l

/-! ### Text transformations from `SlackParser` (parser.py)

`re.sub` with a pattern containing no metacharacters is a global literal
replacement: leftmost match first, non-overlapping, the scan resuming after
each replaced occurrence.  `subLiteralGo` implements exactly that; the fuel
argument (always called with the length of the string) only serves
termination, since at least one character is consumed at every step. -/

/-- One pass of global literal replacement over a character list
(the behaviour of `re.sub(pat, repl, s)` for a metacharacter-free `pat`). -/
def subLiteralGo (pat repl : List Char) : ℕ → List Char → List Char
  | _, [] => []
  | 0, s => s
  | fuel + 1, c :: rest =>
    if pat ≠ [] ∧ pat.isPrefixOf (c :: rest) then
      repl ++ subLiteralGo pat repl fuel ((c :: rest).drop pat.length)
    else
      c :: subLiteralGo pat repl fuel rest

/-- `re.sub(pat, repl, s)` for a literal (metacharacter-free) pattern. -/
def pySubLiteral (pat repl s : String) : String :=
  String.mk (subLiteralGo pat.data repl.data s.data.length s.data)

/-- `SlackParser.unescape_url`: undo the Slack export's escaping of slashes,
replacing every literal backslash-slash by a slash.  (The Python pattern
string spells the two-character literal with regex escaping.) -/
def unescape_url : Option String → Option String
  | none => none
  | some url => some (pySubLiteral "\\/" "/" url)

/-- `SlackParser.unescape_text`: undo the HTML entities for ampersand, then
less-than, then greater-than, in that order, each as a global substitution
over the whole intermediate string. -/
def unescape_text : Option String → Option String
  | none => none
  | some text =>
    let unescaped_amp := pySubLiteral "&amp;" "&" text
    let unescaped_amp_lt := pySubLiteral "&lt;" "<" unescaped_amp
    let unescaped_amp_lt_gt := pySubLiteral "&gt;" ">" unescaped_amp_lt
    some unescaped_amp_lt_gt

/-! `SlackParser.fix_markdown` applies
`re.sub("(\*)(\S+|\S.*\S)(\*)", r"\1*\2*\3", text)` and then the same with
tilde in place of asterisk.  Both patterns have the shape
`(d)(\S+|\S.*\S)(d)` for a single delimiter character `d`, and both
replacement templates expand to `d d <group 2> d d` (group 1 and group 3 can
only ever match `d` itself, and the literal in the middle of the template is
`d` as well).  The functions below implement Python `re` matching semantics
for exactly this pattern shape: at a given start position, the first
alternative `\S+` is tried greedily with backtracking, then the second
alternative `\S.*\S` with a greedy backtracking `.*`; `re.sub` scans left to
right and resumes after each match. -/

/-- Python `\s` on ASCII text: space, tab, newline, carriage return,
form feed, vertical tab.  (The source strings of interest are ASCII.) -/
def isPySpace (c : Char) : Bool :=
  c = ' ' || c = '\t' || c = '\n' || c = '\r' || c = '\x0b' || c = '\x0c'

/-- First alternative `\S+` followed by the closing delimiter: try a group
length of `n`, backtracking downwards to 1.  `t` is the text after the
opening delimiter; on success, return the captured group and the text after
the whole match. -/
def tryGroupAlt1 (d : Char) (t : List Char) : ℕ → Option (List Char × List Char)
  | 0 => none
  | n + 1 =>
    if t.get? (n + 1) = some d then
      some (t.take (n + 1), t.drop (n + 2))
    else
      tryGroupAlt1 d t n

/-- Second alternative `\S.*\S` followed by the closing delimiter, with the
dot-star matching `j` characters, backtracking downwards from the longest
newline-free stretch.  The first `\S` (the head of `t`) has already been
checked by the caller. -/
def tryGroupAlt2 (d : Char) (t : List Char) : ℕ → Option (List Char × List Char)
  | 0 =>
    if ((t.get? 1).map (fun c => !isPySpace c)).getD false && t.get? 2 = some d then
      some (t.take 2, t.drop 3)
    else
      none
  | j + 1 =>
    if ((t.get? (j + 2)).map (fun c => !isPySpace c)).getD false
        && t.get? (j + 3) = some d then
      some (t.take (j + 3), t.drop (j + 4))
    else
      tryGroupAlt2 d t j

/-- Attempt to match `(d)(\S+|\S.*\S)(d)` at the start of `s`.  On success,
return the capture of group 2 and the remaining text after the match. -/
def matchDelim (d : Char) (s : List Char) : Option (List Char × List Char) :=
  match s with
  | [] => none
  | c :: t =>
    if c = d then
      match tryGroupAlt1 d t (t.takeWhile (fun c2 => !isPySpace c2)).length with
      | some r => some r
      | none =>
        match t with
        | [] => none
        | c1 :: t1 =>
          if !isPySpace c1 then
            tryGroupAlt2 d (c1 :: t1) (t1.takeWhile (fun c2 => c2 ≠ '\n')).length
          else
            none
    else
      none

/-- The `re.sub` scan for the delimiter pattern: at each position, replace a
match of `(d)(\S+|\S.*\S)(d)` by `d d <group 2> d d` and resume after it,
else emit one character and move on.  Every match consumes at least three
characters, so fuel equal to the input length suffices. -/
def subDelimGo (d : Char) : ℕ → List Char → List Char
  | _, [] => []
  | 0, s => s
  | fuel + 1, c :: rest =>
    match matchDelim d (c :: rest) with
    | some (g2, after) => d :: d :: (g2 ++ [d, d]) ++ subDelimGo d fuel after
    | none => c :: subDelimGo d fuel rest

/-- `SlackParser.fix_markdown`: rewrite Slack's single-asterisk bold to
Discord's double asterisk, then Slack's single-tilde strikethrough to
Discord's double tilde. -/
def fix_markdown : Option String → Option String
  | none => none
  | some text =>
    let text_bold_fixed :=
      String.mk (subDelimGo '*' text.data.length text.data)
    let text_bold_and_strikethrough_fixed :=
      String.mk (subDelimGo '~' text_bold_fixed.data.length text_bold_fixed.data)
    some text_bold_and_strikethrough_fixed

/-! ### The message model (message.py) -/

/-- Python truthiness of an `Optional[str]`: `None` and the empty string are
falsy, every other string is truthy. -/
def truthy : Option String → Bool
  | none => false
  | some s => s ≠ ""

/-- `str(x)` on an `Optional[str]`: `str(None)` is the string `"None"`. -/
def pyStr : Option String → String
  | none => "None"
  | some s => s

/-- `MessageLink` (message.py): properties of a Slack attachment supporting a
link, all optional. -/
structure MessageLink where
  title : Option String
  title_link : Option String
  text : Option String
  service_name : Option String
  service_icon : Option String
  image_url : Option String
  thumb_url : Option String
deriving DecidableEq

/-- `MessageFile` (message.py): an attached file; `local_filename` is filled
in later by the downloader, `not_found` set if it could not be fetched. -/
structure MessageFile where
  id : String
  name : String
  url : String
  local_filename : Option String
  not_found : Bool
deriving DecidableEq

/-- `ParsedMessage` (message.py): formatted text plus the links and files
appended during construction, in source order. -/
structure ParsedMessage where
  text : String
  links : List MessageLink
  files : List MessageFile
deriving DecidableEq

/-- The fields of a Slack attachment record that `ParsedMessage.add_link`
reads (absent keys are `none`). -/
structure LinkDict where
  title : Option String
  title_link : Option String
  text : Option String
  service_name : Option String
  service_icon : Option String
  image_url : Option String
  thumb_url : Option String
deriving DecidableEq

/-- The fields of a Slack file record that `SlackParser.parse_message` and
`ParsedMessage.add_file` read.  `id`, `name` and `url_private` are indexed
unconditionally in the source, so they are plain fields here. -/
structure FileDict where
  id : String
  name : String
  url_private : String
  mode : Option String
deriving DecidableEq

/-- `ParsedMessage.add_link`: build a `MessageLink` from an attachment
record, unescaping the URL-bearing fields, and append it to the list. -/
def add_link (pm : ParsedMessage) (link_dict : LinkDict) : ParsedMessage :=
  let link : MessageLink :=
    { title := link_dict.title
      title_link := unescape_url link_dict.title_link
      text := link_dict.text
      service_name := link_dict.service_name
      service_icon := unescape_url link_dict.service_icon
      image_url := unescape_url link_dict.image_url
      thumb_url := unescape_url link_dict.thumb_url }
  { pm with links := pm.links ++ [link] }

/-- `ParsedMessage.add_file`: build a `MessageFile` from a file record
(`local_filename` unset, `not_found` false) and append it to the list. -/
def add_file (pm : ParsedMessage) (file_dict : FileDict) : ParsedMessage :=
  let file : MessageFile :=
    { id := file_dict.id
      name := file_dict.name
      url := pyStr (unescape_url (some file_dict.url_private))
      local_filename := none
      not_found := false }
  { pm with files := pm.files ++ [file] }

/-- The maximum number of embeds Discord accepts per message (message.py). -/
def MAX_DISCORD_EMBEDS : ℕ := 10

/-- A `discord.Embed` as populated by `get_discord_send_kwargs`: the
constructor sets title/url/description; author, image and thumbnail are set
afterwards only under the source's truthiness conditions. -/
structure Embed where
  title : Option String
  url : Option String
  description : Option String
  author_name : Option String
  author_icon_url : Option String
  image_url : Option String
  thumbnail_url : Option String
deriving DecidableEq

/-- The translation of one `MessageLink` into one `discord.Embed` performed
inside `get_discord_send_kwargs`. -/
def embed_of_link (link : MessageLink) : Embed :=
  let author := truthy link.service_name || truthy link.service_icon
  { title := link.title
    url := link.title_link
    description := link.text
    author_name := if author then link.service_name else none
    author_icon_url := if author then link.service_icon else none
    image_url := if truthy link.image_url then link.image_url else none
    thumbnail_url := if truthy link.thumb_url then link.thumb_url else none }

/-- The kwargs dict returned by `ParsedMessage.get_discord_send_kwargs`:
the message text and an optional embed list (`None` when there are no
links). -/
structure SendKwargs where
  content : String
  embeds : Option (List Embed)
deriving DecidableEq

/-- `ParsedMessage.get_discord_send_kwargs`, paired with whether the
too-many-links warning was logged.  A non-empty link list is truncated to
the first `MAX_DISCORD_EMBEDS` entries in source order. -/
def get_discord_send_kwargs (pm : ParsedMessage) : SendKwargs × Bool :=
  if pm.links ≠ [] then
    let warned := MAX_DISCORD_EMBEDS < pm.links.length
    let embeds :=
      (pm.links.take (min pm.links.length MAX_DISCORD_EMBEDS)).map embed_of_link
    (⟨pm.text, some embeds⟩, warned)
  else
    (⟨pm.text, none⟩, false)

/-- A `discord.File` as built by `get_discord_add_files_args`: the local
path to upload (`str(file.local_filename)`) and the display name. -/
structure DiscordFile where
  local_path : String
  filename : String
deriving DecidableEq

/-- `ParsedMessage.get_discord_add_files_args`: `None` when the message has
no files, otherwise one `discord.File` per attached file that was found. -/
def get_discord_add_files_args (pm : ParsedMessage) : Option (List DiscordFile) :=
  if pm.files = [] then
    none
  else
    some ((pm.files.filter (fun f => !f.not_found)).map
      (fun f => ⟨pyStr f.local_filename, f.name⟩))

/-! ### The parser model (parser.py) -/

/-- Message timestamps: Python parses the export's `ts` strings with
`float(...)` and only ever stores, compares and sorts the results, so the
rationals model them faithfully for every property below. -/
abbrev Timestamp := ℚ

/-- `ThreadType` (parser.py): a thread map from reply timestamp to the reply,
as a Python dict. -/
abbrev ThreadMap := List (Timestamp × ParsedMessage)

/-- One value of the per-channel dict: the root message paired with its
optional thread map (`None` = standalone). -/
abbrev RootPlusThread := ParsedMessage × Option ThreadMap

/-- The per-channel dict `channel_msgs_dict`: root timestamp to root entry. -/
abbrev ChannelMsgs := List (Timestamp × RootPlusThread)

/-- The `user_profile` sub-dict of a message record, when present and truthy
(an absent or empty profile dict is `none`). -/
structure UserProfile where
  display_name : Option String
  real_name : Option String
deriving DecidableEq

/-- The fields of one exported Slack message record that
`SlackParser.parse_message` and `SlackParser.get_name` read.  `replies` is
whether the key `'replies'` is present; `ts` and `thread_ts` hold the parsed
float value when the key is present. -/
structure SlackRecord where
  type : Option String
  ts : Option Timestamp
  thread_ts : Option Timestamp
  replies : Bool
  user : Option String
  user_profile : Option UserProfile
  text : Option String
  attachments : List LinkDict
  files : List FileDict
deriving DecidableEq

/-- `user_id.startswith('U')`, at the character level. -/
def startsWithU (uid : String) : Bool :=
  match uid.data with
  | 'U' :: _ => true
  | _ => false

/-- `user_id[1:]`: drop the first character. -/
def dropFirstChar (uid : String) : String := String.mk (uid.data.drop 1)

/-- `SlackParser.get_name` (parser.py lines 230-264): resolve a display name
for a message, trying the previously parsed users dict, then the embedded
profile's display name, then its real name, then the sender id (with a
leading `U` stripped), and finally the placeholder `???`.  Total: every
branch returns a string. -/
def get_name (users : List (String × String)) (message : SlackRecord) : String :=
  match message.user.bind (fun uid => pyLookup uid users) with
  | some name => name
  | none =>
    let fromProfile : Option String :=
      match message.user_profile with
      | none => none
      | some p =>
        if truthy p.display_name then p.display_name
        else if truthy p.real_name then p.real_name
        else none
    match fromProfile with
    | some name => name
    | none =>
      match message.user with
      | some user_id =>
        if user_id ≠ "" then
          if startsWithU user_id then dropFirstChar user_id else user_id
        else "???"
      | none => "???"

/-- The resolution order stated by the spec (§4.1): user directory, then
record-embedded display name, then record-embedded full name, then the
sender id with the fixed one-character prefix stripped, then the
placeholder.  Written independently of `get_name`, as a chain of fallbacks,
to compare against the code. -/
def get_name_spec (users : List (String × String)) (message : SlackRecord) : String :=
  let fromDirectory := message.user.bind (fun uid => pyLookup uid users)
  let fromDisplay := message.user_profile.bind (fun p =>
    if truthy p.display_name then p.display_name else none)
  let fromFullName := message.user_profile.bind (fun p =>
    if truthy p.real_name then p.real_name else none)
  let fromSenderId := message.user.bind (fun uid =>
    if uid ≠ "" then
      some (if startsWithU uid then dropFirstChar uid else uid)
    else none)
  (((fromDirectory.or fromDisplay).or fromFullName).or fromSenderId).getD "???"

/-- `SlackParser.format_message`: the header line.  The timestamp formatter
(`SlackParser.format_time`, i.e. `datetime.fromtimestamp(...).isoformat`)
depends on the host timezone, so it is passed in as `fmt`.  A falsy name
(absent or empty) omits the name segment. -/
def format_message (fmt : Timestamp → String) (timestamp : Timestamp)
    (name : Option String) (message : String) : String :=
  let message_sep := if message.data.contains '\n' then "\n" else " "
  if truthy name then
    "`" ++ fmt timestamp ++ "` **" ++ pyStr name ++ "**" ++ message_sep ++ message
  else
    "`" ++ fmt timestamp ++ "`" ++ message_sep ++ message

/-- The `logger.warning` call sites of `SlackParser.parse_message`, one
constructor per site. -/
inductive ParseWarning where
  | missingTimestamp
  | fileTombstone
  | syntheticThread (thread_ts ts : Timestamp)
deriving DecidableEq

/-- Lines 500-532 of parser.py: build the `ParsedMessage` for one record —
the text pipeline (`unescape_url`, `unescape_text`, `fix_markdown`), the
header, then the attachments as links and the non-tombstone files.  Returns
the message together with the tombstone warnings logged on the way. -/
def build_parsed_message (fmt : Timestamp → String) (users : List (String × String))
    (message : SlackRecord) (timestamp : Timestamp) : ParsedMessage × List ParseWarning :=
  let name := get_name users message
  let message_text :=
    pyStr (fix_markdown (unescape_text (unescape_url (some (message.text.getD "")))))
  let full_message_text := format_message fmt timestamp (some name) message_text
  let pm0 : ParsedMessage := ⟨full_message_text, [], []⟩
  let pm1 := message.attachments.foldl add_link pm0
  let step := fun (acc : ParsedMessage × List ParseWarning) (file : FileDict) =>
    if file.mode = some "tombstone" then
      (acc.1, acc.2 ++ [ParseWarning.fileTombstone])
    else
      (add_file acc.1 file, acc.2)
  message.files.foldl step (pm1, [])

/-- The fixed body text of a synthesized thread root (parser.py line 551). -/
def syntheticRootBody : String := "_Unable to find start of exported thread_"

/-- `SlackParser.parse_message` (parser.py lines 471-564): process one
record against the per-channel dict.  Skips non-message records and records
without a timestamp; a record with `'replies'` becomes a thread root with an
empty thread map at its timestamp; otherwise a record with `'thread_ts'` is
filed into the thread map of its root, synthesizing a placeholder root when
the root timestamp is absent; otherwise the record is a standalone root.
Returns the updated dict and the warnings logged, or `.error` for the one
exception the body can raise (the `assert this_thread is not None` on a
reply whose root is present as a standalone message). -/
def parse_message (fmt : Timestamp → String) (users : List (String × String))
    (message : SlackRecord) (channel_msgs_dict : ChannelMsgs) :
    Except String (ChannelMsgs × List ParseWarning) :=
  if message.type ≠ some "message" then
    .ok (channel_msgs_dict, [])
  else
    match message.ts with
    | none => .ok (channel_msgs_dict, [ParseWarning.missingTimestamp])
    | some timestamp =>
      let built := build_parsed_message fmt users message timestamp
      let parsed_message := built.1
      let warnings := built.2
      if message.replies then
        -- head of a thread: a root entry with an empty thread dict
        .ok (pyInsert timestamp (parsed_message, some ([] : ThreadMap)) channel_msgs_dict,
             warnings)
      else
        match message.thread_ts with
        | some thread_timestamp =>
          match pyLookup thread_timestamp channel_msgs_dict with
          | none =>
            -- no root in sight: synthesize one, then file this reply in it
            let fake_message_text :=
              format_message fmt thread_timestamp none syntheticRootBody
            let fake_message : ParsedMessage := ⟨fake_message_text, [], []⟩
            .ok (pyInsert thread_timestamp
                   (fake_message, some (pyInsert timestamp parsed_message ([] : ThreadMap)))
                   channel_msgs_dict,
                 warnings ++ [ParseWarning.syntheticThread thread_timestamp timestamp])
          | some (root, some this_thread) =>
            -- existing thread: mutate its thread dict in place
            .ok (pyInsert thread_timestamp
                   (root, some (pyInsert timestamp parsed_message this_thread))
                   channel_msgs_dict,
                 warnings)
          | some (_root, none) =>
            -- `assert this_thread is not None` fails: AssertionError
            .error "AssertionError: this_thread is not None"
        | none =>
          -- not associated with a thread at all
          .ok (pyInsert timestamp (parsed_message, none) channel_msgs_dict, warnings)

/-! ### The delivery client model (client.py) -/

/-- A Discord text channel, reduced to the fields the code inspects. -/
structure TextChannel where
  name : String
  id : ℕ
deriving DecidableEq

/-- `DiscordClient.get_channel_by_name` (client.py lines 189-236): filter the
server's text channels for an exact name match.  No match: with `create`
disabled this is a fatal `RuntimeError`, with it enabled the channel is
created (`fresh` stands for the remote creation call; in a dry run nothing
is created and `None` is returned).  More than one match: the branch logs an
error and raises.  (As written, the Python f-string of that error message
references a variable that is unbound in this branch, so the line raises
either way; both are modelled as `.error`.)  Exactly one match: return it. -/
def get_channel_by_name (fresh : String → TextChannel)
    (text_channels : List TextChannel) (channel_name : String)
    (create : Bool) (dry_run : Bool) : Except String (Option TextChannel) :=
  let channels := text_channels.filter (fun c => c.name = channel_name)
  match channels with
  | [] =>
    if !create then
      .error ("Unable to find Discord channel " ++ channel_name
        ++ ", use --create to auto create")
    else if dry_run then
      .ok none
    else
      .ok (some (fresh channel_name))
  | [channel] => .ok (some channel)
  | _ => .error "Found multiple Discord channels with the same name"

/-- Two consecutive hyphens somewhere in the name. -/
def hasDoubleHyphen : List Char → Bool
  | '-' :: '-' :: _ => true
  | _ :: rest => hasDoubleHyphen rest
  | [] => false

/-- Modelled from the spec: `DiscordClient.valid_channel_name` is referenced
by the repository's test suite (tests/test_client.py) but its definition is
not among the source files here.  Spec §4.3: a destination channel name is
1-100 characters of letters, digits, hyphen and underscore with no two
consecutive hyphens.  The spec says lowercase letters, but the repository's
own tests assert that a name containing uppercase letters is valid, so the
model admits both cases; the counterexample theorem for the claim records
the conflict. -/
def valid_channel_name (channel_name : String) : Bool :=
  decide (1 ≤ channel_name.length) && decide (channel_name.length ≤ 100)
    && channel_name.data.all (fun c =>
        ('a' ≤ c && c ≤ 'z') || ('A' ≤ c && c ≤ 'Z')
          || ('0' ≤ c && c ≤ '9') || c = '-' || c = '_')
    && !(hasDoubleHyphen channel_name.data)

/-- The character class of the claim and of spec §4.3 taken literally:
lowercase letters only. -/
def lowercase_channel_name_char (c : Char) : Bool :=
  ('a' ≤ c && c ≤ 'z') || ('0' ≤ c && c ≤ '9') || c = '-' || c = '_'

/-- The names that `tests/test_client.py` asserts pass validation. -/
def test_valid_channel_names : List String :=
  [ "general", "foo-bar", "foo_bar", "foo-_bar", "foo_-bar", "foo__bar",
    "foo-_-bar", "foo_-_bar", "foo-bar-baz", "foo_bar_baz", "foo-bar_baz",
    "foo_bar-baz", "a",
    "ABCDEFGHIJKLMNOPQRSTUVWXYZabcdefghijklmnopqrstuvwxyz1234567890-_",
    "123456789012345678901234567890123456789012345678901234567890123456789012345678901234567890123456789",
    "1234567890123456789012345678901234567890123456789012345678901234567890123456789012345678901234567890" ]

/-- The names that `tests/test_client.py` asserts fail validation. -/
def test_invalid_channel_names : List String :=
  [ "foo--bar", "foo---bar", "foo----bar", "", " ", "foo bar", "foo\tbar",
    "foo#bar", "foo`-=bar", "foo~!@#$%^&*()_+bar",
    "foo[]\\;\x27,./bar", "foo\x7b\x7d|:\"<>?bar",
    "12345678901234567890123456789012345678901234567890123456789012345678901234567890123456789012345678901" ]

/-- The exception classification of `DiscordClient.discord_retry`:
a rate-limit response carrying the server-supplied wait, an HTTP exception,
or any other exception (HTTP and other differ only in the logged text). -/
inductive DiscordErr where
  | rateLimited (retry_after : ℚ)
  | http
  | other
deriving DecidableEq

/-- The fixed escalating backoff schedule of `discord_retry` (seconds). -/
def retry_backoff : List ℚ := [1, 5, 30]

/-- The wait chosen for the `retry_count`-th consecutive failure
(`retry_count` counts from 1): the server-supplied duration when rate
limited, else `retry_backoff[min(retry_count - 1, len - 1)]`. -/
def retry_wait (retry_count : ℕ) : DiscordErr → ℚ
  | .rateLimited r => r
  | _ => retry_backoff.getD (min (retry_count - 1) (retry_backoff.length - 1)) 0

/-- The trace of one `discord_retry`-wrapped call: how many times the coro
was invoked, the sleeps performed in order, and the returned value. -/
structure RetryTrace (α : Type) where
  calls : ℕ
  waits : List ℚ
  result : α
deriving DecidableEq

/-- The retry loop of `discord_retry`, run against a script of outcomes: the
wrapped coroutine fails with each element of `failures` in turn (every
attempt repeats the identical call) and then succeeds with `success`.
`retry_count` is the loop counter already accumulated. -/
def discord_retry_from (retry_count : ℕ) (failures : List DiscordErr)
    (success : α) : RetryTrace α :=
  match failures with
  | [] => ⟨1, [], success⟩
  | e :: rest =>
    let t := discord_retry_from (retry_count + 1) rest success
    ⟨t.calls + 1, retry_wait (retry_count + 1) e :: t.waits, t.result⟩

/-- `discord_retry` from a fresh call (`retry_count = 0`). -/
def discord_retry (failures : List DiscordErr) (success : α) : RetryTrace α :=
  discord_retry_from 0 failures success

/-! ### The posting loop (client.py `post_messages_to_channel`) -/

/-- One remote call issued while posting a channel, in order: a root send, a
follow-up attach-files call, a thread creation anchored at a root, a reply
send into a thread, or an attach-files call for a reply. -/
inductive PostEvent where
  | sendRoot (ts : Timestamp) (kwargs : SendKwargs)
  | addFilesRoot (ts : Timestamp) (args : Option (List DiscordFile))
  | createThread (ts : Timestamp)
  | sendReply (root_ts : Timestamp) (ts : Timestamp) (kwargs : SendKwargs)
  | addFilesReply (root_ts : Timestamp) (ts : Timestamp) (args : Option (List DiscordFile))
deriving DecidableEq

/-- The body of the inner loop of `post_messages_to_channel` for one reply
timestamp `t2`: look the reply up in the thread dict, send it, and attach
its files if it has any. -/
def post_reply_block (thread : ThreadMap) (root_ts t2 : Timestamp) : List PostEvent :=
  match pyLookup t2 thread with
  | none => []  -- unreachable: every sorted key is a key of the dict
  | some m2 =>
    PostEvent.sendReply root_ts t2 (get_discord_send_kwargs m2).1 ::
      (if m2.files ≠ [] then
        [PostEvent.addFilesReply root_ts t2 (get_discord_add_files_args m2)]
      else [])

/-- The inner loop of `post_messages_to_channel`: post one thread's replies,
iterating the thread dict's keys in ascending order. -/
def post_thread_events (root_ts : Timestamp) (thread : ThreadMap) : List PostEvent :=
  (sortKeys (pyKeys thread)).flatMap (post_reply_block thread root_ts)

/-- The body of the outer loop of `post_messages_to_channel` for one root
timestamp `ts`: look the entry up in the channel dict, send the root, attach
its files if any, and if it has a non-empty thread dict (`if thread:` —
`None` and the empty dict are both falsy) create the thread and post the
replies. -/
def post_root_block (channel_msgs_dict : ChannelMsgs) (ts : Timestamp) : List PostEvent :=
  match pyLookup ts channel_msgs_dict with
  | none => []  -- unreachable: every sorted key is a key of the dict
  | some (message, thread) =>
    PostEvent.sendRoot ts (get_discord_send_kwargs message).1 ::
      (if message.files ≠ [] then
        [PostEvent.addFilesRoot ts (get_discord_add_files_args message)]
      else []) ++
      (match thread with
       | none => []
       | some t =>
         if t ≠ [] then PostEvent.createThread ts :: post_thread_events ts t
         else [])

/-- `DiscordClient.post_messages_to_channel` (client.py lines 305-349) as
the sequence of remote calls it issues: iterate the channel dict's keys in
ascending order, handling each root (and its thread, if any) in turn. -/
def post_messages_to_channel (channel_msgs_dict : ChannelMsgs) : List PostEvent :=
  (sortKeys (pyKeys channel_msgs_dict)).flatMap (post_root_block channel_msgs_dict)

/-- The timestamps of the root sends of a posting trace, in trace order. -/
def rootSendTimestamps (events : List PostEvent) : List Timestamp :=
  events.filterMap (fun e =>
    match e with
    | .sendRoot ts _ => some ts
    | _ => none)

/-- The timestamps of the reply sends into the thread anchored at `root_ts`,
in trace order. -/
def replySendTimestamps (root_ts : Timestamp) (events : List PostEvent) : List Timestamp :=
  events.filterMap (fun e =>
    match e with
    | .sendReply r ts _ => if r = root_ts then some ts else none
    | _ => none)

/-- A concrete channel dict for the C1 witness, inserted out of
chronological order: a thread root at 2000 whose thread dict holds replies
at 2002 and 2001 (also out of order), then a standalone message at 1000. -/
def claim1_example_dict : ChannelMsgs :=
  [ (2000, (⟨"root", [], []⟩, some [(2002, ⟨"second reply", [], []⟩),
                                    (2001, ⟨"first reply", [], []⟩)])),
    (1000, (⟨"standalone", [], []⟩, none)) ]

/-- Counterexample input for C2: a record that declares it has replies, at a
timestamp for which the channel dict already holds an entry. -/
def claim2_record : SlackRecord :=
  { type := some "message", ts := some 2000, thread_ts := none, replies := true,
    user := some "U1", user_profile := none, text := some "root",
    attachments := [], files := [] }

/-- Counterexample state for C2: the channel dict already holds, at that same
timestamp 2000, a synthesized placeholder root whose thread dict holds one
reply (the state left by an out-of-order reply). -/
def claim2_dict_before : ChannelMsgs :=
  [(2000, (⟨"placeholder", [], []⟩, some [(2001, ⟨"orphan reply", [], []⟩)]))]

/-- C3 example record: a reply at timestamp 1501 to a root at 1500 that the
channel dict has never seen. -/
def claim3_record : SlackRecord :=
  { type := some "message", ts := some 1501, thread_ts := some 1500,
    replies := false, user := some "U2", user_profile := none,
    text := some "hi", attachments := [], files := [] }

/-- C3 example state: one unrelated standalone entry. -/
def claim3_example_dict : ChannelMsgs :=
  [(1000, (⟨"other", [], []⟩, none))]

/-- A message with eleven links, for the C9 witness. -/
def claim9_example_message : ParsedMessage :=
  ⟨"text", List.replicate 11 ⟨none, none, none, none, none, none, none⟩, []⟩

theorem pyLookup_eq_none {κ ν : Type} [DecidableEq κ] (k : κ) (d : List (κ × ν)) :
    pyLookup k d = none ↔ k ∉ pyKeys d := by
  induction d with
  | nil => simp [pyLookup, pyKeys]
  | cons hd tl ih =>
    obtain ⟨k1, v1⟩ := hd
    by_cases h : k1 = k
    · subst h
      simp [pyLookup, pyKeys]
    · simp [pyLookup, pyKeys, h, Ne.symm h, ih]

theorem pyLookup_isSome_of_mem {κ ν : Type} [DecidableEq κ] {k : κ} {d : List (κ × ν)}
    (h : k ∈ pyKeys d) : ∃ v, pyLookup k d = some v := by
  rcases hv : pyLookup k d with _ | v
  · exact absurd ((pyLookup_eq_none k d).mp hv) (by simpa using h)
  · exact ⟨v, rfl⟩

theorem mem_keys_of_pyLookup {κ ν : Type} [DecidableEq κ] {k : κ} {d : List (κ × ν)} {v : ν}
    (h : pyLookup k d = some v) : k ∈ pyKeys d := by
  by_contra hk
  rw [(pyLookup_eq_none k d).mpr hk] at h
  exact Option.noConfusion h

theorem pyLookup_pyInsert_self {κ ν : Type} [DecidableEq κ] (k : κ) (v : ν) (d : List (κ × ν)) :
    pyLookup k (pyInsert k v d) = some v := by
  induction d with
  | nil => simp [pyInsert, pyLookup]
  | cons hd tl ih =>
    obtain ⟨k1, v1⟩ := hd
    by_cases h : k1 = k <;> simp [pyInsert, pyLookup, h, ih]

theorem pyLookup_pyInsert_of_ne {κ ν : Type} [DecidableEq κ] {k k2 : κ} (hne : k2 ≠ k)
    (v : ν) (d : List (κ × ν)) :
    pyLookup k2 (pyInsert k v d) = pyLookup k2 d := by
  have hne2 : k ≠ k2 := Ne.symm hne
  induction d with
  | nil => simp [pyInsert, pyLookup, hne2]
  | cons hd tl ih =>
    obtain ⟨k1, v1⟩ := hd
    by_cases h : k1 = k
    · subst h
      simp [pyInsert, pyLookup, hne2]
    · simp [pyInsert, pyLookup, h, ih]

theorem pyInsert_of_not_mem {κ ν : Type} [DecidableEq κ] {k : κ} {d : List (κ × ν)}
    (h : k ∉ pyKeys d) (v : ν) : pyInsert k v d = d ++ [(k, v)] := by
  induction d with
  | nil => simp [pyInsert]
  | cons hd tl ih =>
    obtain ⟨k1, v1⟩ := hd
    simp only [pyKeys, List.map_cons, List.mem_cons] at h
    push_neg at h
    simp [pyInsert, Ne.symm h.1, ih (by simpa [pyKeys] using h.2)]

theorem pyKeys_pyInsert_of_mem {κ ν : Type} [DecidableEq κ] {k : κ} {d : List (κ × ν)}
    (h : k ∈ pyKeys d) (v : ν) : pyKeys (pyInsert k v d) = pyKeys d := by
  induction d with
  | nil => simp [pyKeys] at h
  | cons hd tl ih =>
    obtain ⟨k1, v1⟩ := hd
    by_cases hk : k1 = k
    · simp [pyInsert, pyKeys, hk]
    · simp only [pyKeys, List.map_cons, List.mem_cons] at h
      rcases h with h | h
      · exact absurd h.symm hk
      · have ih2 := ih (by simpa [pyKeys] using h)
        simp only [pyKeys] at ih2
        simp [pyInsert, pyKeys, hk, ih2]

/-- With unique keys, lookup does not depend on the insertion order of the
bindings: any permutation of the association list looks up identically. -/
theorem pyLookup_perm {κ ν : Type} [DecidableEq κ] {d1 d2 : List (κ × ν)}
    (p : d1.Perm d2) (nd : (pyKeys d1).Nodup) (k : κ) :
    pyLookup k d1 = pyLookup k d2 := by
  induction p with
  | nil => rfl
  | cons x _ ih =>
    obtain ⟨k1, v1⟩ := x
    simp only [pyKeys, List.map_cons, List.nodup_cons] at nd
    by_cases h : k1 = k <;> simp [pyLookup, h, ih (by simpa [pyKeys] using nd.2)]
  | swap x y l =>
    obtain ⟨k1, v1⟩ := x
    obtain ⟨k2, v2⟩ := y
    simp only [pyKeys, List.map_cons, List.nodup_cons, List.mem_cons] at nd
    by_cases h1 : k1 = k <;> by_cases h2 : k2 = k
    · exact absurd (h2.trans h1.symm) (fun hh => nd.1 (Or.inl hh))
    · simp [pyLookup, h1, h2]
    · simp [pyLookup, h1, h2]
    · simp [pyLookup, h1, h2]
  | trans p1 p2 ih1 ih2 =>
    have nd2 := (List.Perm.nodup_iff (List.Perm.map Prod.fst p1)).mp (by simpa [pyKeys] using nd)
    exact (ih1 nd).trans (ih2 (by simpa [pyKeys] using nd2))

theorem sortKeys_sorted (l : List ℚ) : List.Sorted (· ≤ ·) (sortKeys l) :=
  List.sorted_insertionSort _ l

theorem sortKeys_perm (l : List ℚ) : (sortKeys l).Perm l :=
  List.perm_insertionSort _ l

theorem sortKeys_eq_of_perm {l1 l2 : List ℚ} (p : l1.Perm l2) : sortKeys l1 = sortKeys l2 :=
  List.eq_of_perm_of_sorted (((sortKeys_perm l1).trans p).trans (sortKeys_perm l2).symm)
    (sortKeys_sorted l1) (sortKeys_sorted l2)

theorem sortKeys_nodup {l : List ℚ} (h : l.Nodup) : (sortKeys l).Nodup :=
  (List.Perm.nodup_iff (sortKeys_perm l)).mpr h

theorem mem_sortKeys {l : List ℚ} {x : ℚ} : x ∈ sortKeys l ↔ x ∈ l :=
  (sortKeys_perm l).mem_iff

/-! ### Lemmas about the posting trace -/

theorem filterMap_flatMap_distrib {α β γ : Type} (l : List α) (f : α → List β)
    (g : β → Option γ) :
    (l.flatMap f).filterMap g = l.flatMap (fun a => (f a).filterMap g) := by
  induction l with
  | nil => rfl
  | cons a l ih => simp [List.flatMap_cons, List.filterMap_append, ih]

theorem filterMap_flatMap_nil {α β γ : Type} {l : List α} {f : α → List β}
    (g : β → Option γ) (h : ∀ a ∈ l, (f a).filterMap g = []) :
    (l.flatMap f).filterMap g = [] := by
  induction l with
  | nil => rfl
  | cons a l ih =>
    rw [List.flatMap_cons, List.filterMap_append, h a (List.mem_cons_self a l),
      ih (fun x hx => h x (List.mem_cons_of_mem a hx))]
    rfl

theorem filterMap_flatMap_single {α β γ : Type} {l : List α} {f : α → List β}
    (g : β → Option γ) {a0 : α} (hnd : l.Nodup) (hmem : a0 ∈ l)
    (hother : ∀ a ∈ l, a ≠ a0 → (f a).filterMap g = []) :
    (l.flatMap f).filterMap g = (f a0).filterMap g := by
  induction l with
  | nil => cases hmem
  | cons b l ih =>
    rw [List.flatMap_cons, List.filterMap_append]
    rcases List.mem_cons.mp hmem with rfl | hm2
    · have hl0 : ∀ a ∈ l, (f a).filterMap g = [] := fun a ha =>
        hother a (List.mem_cons_of_mem _ ha)
          (fun he => (List.nodup_cons.mp hnd).1 (he ▸ ha))
      rw [filterMap_flatMap_nil g hl0]
      simp
    · have hb : b ≠ a0 := fun he => (List.nodup_cons.mp hnd).1 (he ▸ hm2)
      rw [hother b (List.mem_cons_self b l) hb,
        ih (List.nodup_cons.mp hnd).2 hm2
          (fun a ha hne => hother a (List.mem_cons_of_mem _ ha) hne)]
      rfl

theorem rootSendTimestamps_append (a b : List PostEvent) :
    rootSendTimestamps (a ++ b) = rootSendTimestamps a ++ rootSendTimestamps b :=
  List.filterMap_append a b _

theorem rootSendTimestamps_nil : rootSendTimestamps [] = [] := rfl

theorem rootSendTimestamps_cons_sendRoot (ts : Timestamp) (k : SendKwargs)
    (evs : List PostEvent) :
    rootSendTimestamps (PostEvent.sendRoot ts k :: evs) = ts :: rootSendTimestamps evs := rfl

theorem rootSendTimestamps_cons_addFilesRoot (ts : Timestamp)
    (a : Option (List DiscordFile)) (evs : List PostEvent) :
    rootSendTimestamps (PostEvent.addFilesRoot ts a :: evs) = rootSendTimestamps evs := rfl

theorem rootSendTimestamps_cons_createThread (ts : Timestamp) (evs : List PostEvent) :
    rootSendTimestamps (PostEvent.createThread ts :: evs) = rootSendTimestamps evs := rfl

theorem replySendTimestamps_append (rts : Timestamp) (a b : List PostEvent) :
    replySendTimestamps rts (a ++ b) =
      replySendTimestamps rts a ++ replySendTimestamps rts b :=
  List.filterMap_append a b _

theorem replySendTimestamps_nil (rts : Timestamp) : replySendTimestamps rts [] = [] := rfl

theorem replySendTimestamps_cons_sendRoot (rts ts : Timestamp) (k : SendKwargs)
    (evs : List PostEvent) :
    replySendTimestamps rts (PostEvent.sendRoot ts k :: evs) =
      replySendTimestamps rts evs := rfl

theorem replySendTimestamps_cons_addFilesRoot (rts ts : Timestamp)
    (a : Option (List DiscordFile)) (evs : List PostEvent) :
    replySendTimestamps rts (PostEvent.addFilesRoot ts a :: evs) =
      replySendTimestamps rts evs := rfl

theorem replySendTimestamps_cons_createThread (rts ts : Timestamp) (evs : List PostEvent) :
    replySendTimestamps rts (PostEvent.createThread ts :: evs) =
      replySendTimestamps rts evs := rfl

theorem replySendTimestamps_cons_addFilesReply (rts r ts : Timestamp)
    (a : Option (List DiscordFile)) (evs : List PostEvent) :
    replySendTimestamps rts (PostEvent.addFilesReply r ts a :: evs) =
      replySendTimestamps rts evs := rfl

theorem replySendTimestamps_cons_sendReply (rts r ts : Timestamp) (k : SendKwargs)
    (evs : List PostEvent) :
    replySendTimestamps rts (PostEvent.sendReply r ts k :: evs) =
      (if r = rts then [ts] else []) ++ replySendTimestamps rts evs := by
  by_cases h : r = rts <;> simp [replySendTimestamps, List.filterMap_cons, h]

theorem rootSendTimestamps_reply_block (th : ThreadMap) (rts t2 : Timestamp) :
    rootSendTimestamps (post_reply_block th rts t2) = [] := by
  unfold post_reply_block
  cases hl : pyLookup t2 th with
  | none => rfl
  | some m2 =>
    by_cases h : m2.files = [] <;> simp [rootSendTimestamps, List.filterMap_cons, h]

theorem rootSendTimestamps_thread (rts : Timestamp) (th : ThreadMap) :
    rootSendTimestamps (post_thread_events rts th) = [] := by
  unfold post_thread_events rootSendTimestamps
  exact filterMap_flatMap_nil _ (fun t2 _ => rootSendTimestamps_reply_block th rts t2)

theorem rootSendTimestamps_root_block {d : ChannelMsgs} {ts : Timestamp}
    (h : ts ∈ pyKeys d) : rootSendTimestamps (post_root_block d ts) = [ts] := by
  obtain ⟨⟨m, th⟩, hl⟩ := pyLookup_isSome_of_mem h
  unfold post_root_block
  rw [hl]
  have hA : rootSendTimestamps
      (if m.files ≠ [] then [PostEvent.addFilesRoot ts (get_discord_add_files_args m)]
       else []) = [] := by
    split <;> rfl
  rcases th with _ | t <;> dsimp only
  · rw [rootSendTimestamps_append, rootSendTimestamps_cons_sendRoot, hA]
    rfl
  · rw [rootSendTimestamps_append, rootSendTimestamps_cons_sendRoot, hA]
    have hB : rootSendTimestamps
        (if t ≠ [] then PostEvent.createThread ts :: post_thread_events ts t else []) = [] := by
      split
      · rw [rootSendTimestamps_cons_createThread, rootSendTimestamps_thread]
      · rfl
    rw [hB]
    rfl

theorem rootSendTimestamps_flatMap (d : ChannelMsgs) (l : List Timestamp)
    (h : ∀ ts ∈ l, ts ∈ pyKeys d) :
    rootSendTimestamps (l.flatMap (post_root_block d)) = l := by
  induction l with
  | nil => rfl
  | cons a l ih =>
    rw [List.flatMap_cons, rootSendTimestamps_append,
      rootSendTimestamps_root_block (h a (List.mem_cons_self a l)),
      ih (fun x hx => h x (List.mem_cons_of_mem a hx))]
    rfl

theorem rootSendTimestamps_post (d : ChannelMsgs) :
    rootSendTimestamps (post_messages_to_channel d) = sortKeys (pyKeys d) :=
  rootSendTimestamps_flatMap d _ (fun _ h => mem_sortKeys.mp h)

theorem replySendTimestamps_reply_block_self {th : ThreadMap} {t2 : Timestamp}
    (rts : Timestamp) (h : t2 ∈ pyKeys th) :
    replySendTimestamps rts (post_reply_block th rts t2) = [t2] := by
  obtain ⟨m2, hl⟩ := pyLookup_isSome_of_mem h
  unfold post_reply_block
  rw [hl]
  by_cases hf : m2.files = [] <;>
    simp [replySendTimestamps, List.filterMap_cons, hf]

theorem replySendTimestamps_reply_block_ne {rts rts' : Timestamp} (hne : rts ≠ rts')
    (th : ThreadMap) (t2 : Timestamp) :
    replySendTimestamps rts' (post_reply_block th rts t2) = [] := by
  unfold post_reply_block
  cases hl : pyLookup t2 th with
  | none => rfl
  | some m2 =>
    by_cases hf : m2.files = [] <;>
      simp [replySendTimestamps, List.filterMap_cons, hf, hne]

theorem replySendTimestamps_thread_self (rts : Timestamp) (th : ThreadMap) :
    replySendTimestamps rts (post_thread_events rts th) = sortKeys (pyKeys th) := by
  unfold post_thread_events
  have step : ∀ l : List Timestamp, (∀ t2 ∈ l, t2 ∈ pyKeys th) →
      replySendTimestamps rts (l.flatMap (post_reply_block th rts)) = l := by
    intro l hl
    induction l with
    | nil => rfl
    | cons a l ih =>
      rw [List.flatMap_cons]
      show List.filterMap _ (_ ++ _) = _
      rw [List.filterMap_append]
      have h1 := replySendTimestamps_reply_block_self rts (hl a (List.mem_cons_self a l))
      have h2 := ih (fun x hx => hl x (List.mem_cons_of_mem a hx))
      simp only [replySendTimestamps] at h1 h2
      rw [h1, h2]
      rfl
  exact step _ (fun _ h => mem_sortKeys.mp h)

theorem replySendTimestamps_thread_ne {rts rts' : Timestamp} (hne : rts ≠ rts')
    (th : ThreadMap) :
    replySendTimestamps rts' (post_thread_events rts th) = [] := by
  unfold post_thread_events replySendTimestamps
  exact filterMap_flatMap_nil _ (fun t2 _ => by
    simpa [replySendTimestamps] using replySendTimestamps_reply_block_ne hne th t2)

theorem replySendTimestamps_root_block_ne {d : ChannelMsgs} {ts rts : Timestamp}
    (hne : ts ≠ rts) : replySendTimestamps rts (post_root_block d ts) = [] := by
  unfold post_root_block
  cases hl : pyLookup ts d with
  | none => rfl
  | some e =>
    obtain ⟨m, th⟩ := e
    have hA : replySendTimestamps rts
        (if m.files ≠ [] then [PostEvent.addFilesRoot ts (get_discord_add_files_args m)]
         else []) = [] := by
      split <;> rfl
    rcases th with _ | t <;> dsimp only
    · rw [replySendTimestamps_append, replySendTimestamps_cons_sendRoot, hA]
      rfl
    · rw [replySendTimestamps_append, replySendTimestamps_cons_sendRoot, hA]
      have hB : replySendTimestamps rts
          (if t ≠ [] then PostEvent.createThread ts :: post_thread_events ts t else []) = [] := by
        split
        · rw [replySendTimestamps_cons_createThread, replySendTimestamps_thread_ne hne]
        · rfl
      rw [hB]
      rfl

theorem replySendTimestamps_root_block_self {d : ChannelMsgs} {rts : Timestamp}
    {m : ParsedMessage} {th : ThreadMap} (hl : pyLookup rts d = some (m, some th)) :
    replySendTimestamps rts (post_root_block d rts) = sortKeys (pyKeys th) := by
  unfold post_root_block
  rw [hl]
  dsimp only
  have hA : replySendTimestamps rts
      (if m.files ≠ [] then [PostEvent.addFilesRoot rts (get_discord_add_files_args m)]
       else []) = [] := by
    split <;> rfl
  rw [replySendTimestamps_append, replySendTimestamps_cons_sendRoot, hA]
  have hB : replySendTimestamps rts
      (if th ≠ [] then PostEvent.createThread rts :: post_thread_events rts th else []) =
      sortKeys (pyKeys th) := by
    split
    · rw [replySendTimestamps_cons_createThread, replySendTimestamps_thread_self]
    · rename_i he
      simp only [ne_eq, not_not] at he
      subst he
      rfl
  rw [hB]
  rfl

theorem replySendTimestamps_post {d : ChannelMsgs} {rts : Timestamp}
    {m : ParsedMessage} {th : ThreadMap} (hnd : (pyKeys d).Nodup)
    (hl : pyLookup rts d = some (m, some th)) :
    replySendTimestamps rts (post_messages_to_channel d) = sortKeys (pyKeys th) := by
  unfold post_messages_to_channel
  have hmem : rts ∈ sortKeys (pyKeys d) := mem_sortKeys.mpr (mem_keys_of_pyLookup hl)
  have hnd2 : (sortKeys (pyKeys d)).Nodup := sortKeys_nodup hnd
  have hsingle := filterMap_flatMap_single
    (fun e => match e with
      | PostEvent.sendReply r ts _ => if r = rts then some ts else none
      | _ => none)
    hnd2 hmem
    (fun a _ hne => by
      simpa [replySendTimestamps] using @replySendTimestamps_root_block_ne d a rts hne)
  show List.filterMap _ _ = _
  rw [hsingle]
  simpa [replySendTimestamps] using replySendTimestamps_root_block_self hl

theorem post_root_block_ext {d1 d2 : ChannelMsgs}
    (h : ∀ k, pyLookup k d1 = pyLookup k d2) :
    post_root_block d1 = post_root_block d2 := by
  funext ts
  unfold post_root_block
  rw [h ts]

theorem post_reply_block_ext {t1 t2 : ThreadMap}
    (h : ∀ k, pyLookup k t1 = pyLookup k t2) (rts : Timestamp) :
    post_reply_block t1 rts = post_reply_block t2 rts := by
  funext k
  unfold post_reply_block
  rw [h k]

theorem post_messages_perm {d1 d2 : ChannelMsgs} (p : d1.Perm d2)
    (nd : (pyKeys d1).Nodup) :
    post_messages_to_channel d1 = post_messages_to_channel d2 := by
  unfold post_messages_to_channel
  have hk : sortKeys (pyKeys d1) = sortKeys (pyKeys d2) :=
    sortKeys_eq_of_perm (p.map Prod.fst)
  rw [← hk, post_root_block_ext (fun k => pyLookup_perm p nd k)]

theorem post_thread_perm (rts : Timestamp) {t1 t2 : ThreadMap} (p : t1.Perm t2)
    (nd : (pyKeys t1).Nodup) :
    post_thread_events rts t1 = post_thread_events rts t2 := by
  unfold post_thread_events
  have hk : sortKeys (pyKeys t1) = sortKeys (pyKeys t2) :=
    sortKeys_eq_of_perm (p.map Prod.fst)
  rw [← hk, post_reply_block_ext (fun k => pyLookup_perm p nd k)]

/-! ### The claims -/

/-- C1: for every parsed export, the delivery pipeline posts each channel's
root messages by iterating the channel dict's keys in ascending numeric
timestamp order, and each thread's replies by iterating that thread dict's
keys in ascending order, so the observed posting order reproduces source
chronological order regardless of the insertion order of the entries of
either dict.  Formally: the root sends of the trace are exactly the sorted
keys (a sorted permutation of the key set), the reply sends into the thread
anchored at a root are exactly that thread dict's sorted keys, and the whole
trace is invariant under permuting the bindings of the channel dict or of a
thread dict. -/
theorem claim1_posting_order (d : ChannelMsgs) (hnd : (pyKeys d).Nodup) :
    (rootSendTimestamps (post_messages_to_channel d) = sortKeys (pyKeys d) ∧
     List.Sorted (· ≤ ·) (rootSendTimestamps (post_messages_to_channel d)) ∧
     (rootSendTimestamps (post_messages_to_channel d)).Perm (pyKeys d)) ∧
    (∀ (rts : Timestamp) (m : ParsedMessage) (th : ThreadMap),
      pyLookup rts d = some (m, some th) →
      replySendTimestamps rts (post_messages_to_channel d) = sortKeys (pyKeys th) ∧
      List.Sorted (· ≤ ·) (replySendTimestamps rts (post_messages_to_channel d)) ∧
      (replySendTimestamps rts (post_messages_to_channel d)).Perm (pyKeys th)) ∧
    (∀ d2 : ChannelMsgs, d.Perm d2 →
      post_messages_to_channel d = post_messages_to_channel d2) ∧
    (∀ (rts : Timestamp) (th th2 : ThreadMap), th.Perm th2 → (pyKeys th).Nodup →
      post_thread_events rts th = post_thread_events rts th2) := by
  refine ⟨⟨rootSendTimestamps_post d, ?_, ?_⟩, ?_, ?_, ?_⟩
  · rw [rootSendTimestamps_post d]
    exact sortKeys_sorted _
  · rw [rootSendTimestamps_post d]
    exact sortKeys_perm _
  · intro rts m th hl
    refine ⟨replySendTimestamps_post hnd hl, ?_, ?_⟩
    · rw [replySendTimestamps_post hnd hl]
      exact sortKeys_sorted _
    · rw [replySendTimestamps_post hnd hl]
      exact sortKeys_perm _
  · intro d2 p
    exact post_messages_perm p hnd
  · intro rts th th2 p ndth
    exact post_thread_perm rts p ndth

/-- Witness for C1: on the concrete dict the hypotheses hold and the posting
trace visits the roots as [1000, 2000] and the replies of thread 2000 as
[2001, 2002], despite both dicts being populated in the opposite order. -/
theorem claim1_witness :
    (pyKeys claim1_example_dict).Nodup ∧
    rootSendTimestamps (post_messages_to_channel claim1_example_dict) = [1000, 2000] ∧
    replySendTimestamps 2000 (post_messages_to_channel claim1_example_dict) =
      [2001, 2002] := by
  refine ⟨by decide, ?_, ?_⟩
  · rw [(claim1_posting_order claim1_example_dict (by decide)).1.1]
    decide
  · rw [((claim1_posting_order claim1_example_dict (by decide)).2.1 2000
      ⟨"root", [], []⟩
      [(2002, ⟨"second reply", [], []⟩), (2001, ⟨"first reply", [], []⟩)]
      (by decide)).1]
    decide

/-- Counterexample for C2: processing a record that declares replies at
timestamp 2000 against a dict that already has an entry there replaces that
entry with a fresh root carrying an *empty* thread dict — the previously
collected reply at 2001 is destroyed, contradicting "overwriting nothing". -/
theorem claim2_counterexample :
    pyLookup 2000 claim2_dict_before =
      some (⟨"placeholder", [], []⟩, some [(2001, ⟨"orphan reply", [], []⟩)]) ∧
    parse_message (fun _ => "") [] claim2_record claim2_dict_before =
      .ok ([(2000, (⟨"`` **1** root", [], []⟩, some []))], []) ∧
    pyLookup (2000 : ℚ) [((2000 : ℚ), ((⟨"`` **1** root", [], []⟩ : ParsedMessage),
        some ([] : ThreadMap)))] ≠
      pyLookup 2000 claim2_dict_before := by
  refine ⟨by decide, by rfl, by decide⟩

/-- C2 (amended): for every channel state and every message-type record with
a timestamp that declares it has replies, the placement step installs a root
entry with an empty thread dict at that timestamp; every *other* entry of
the channel dict is unchanged, but an entry already present at that same
timestamp is replaced (its thread map, including a synthesized placeholder
root's collected replies, is lost — see the counterexample). -/
theorem claim2_replies_placement (fmt : Timestamp → String)
    (users : List (String × String)) (message : SlackRecord) (d : ChannelMsgs)
    (ts : Timestamp) (htype : message.type = some "message")
    (hts : message.ts = some ts) (hrep : message.replies = true) :
    parse_message fmt users message d =
      .ok (pyInsert ts ((build_parsed_message fmt users message ts).1,
             some ([] : ThreadMap)) d,
           (build_parsed_message fmt users message ts).2) ∧
    pyLookup ts (pyInsert ts ((build_parsed_message fmt users message ts).1,
        some ([] : ThreadMap)) d) =
      some ((build_parsed_message fmt users message ts).1, some ([] : ThreadMap)) ∧
    (∀ k, k ≠ ts →
      pyLookup k (pyInsert ts ((build_parsed_message fmt users message ts).1,
        some ([] : ThreadMap)) d) = pyLookup k d) := by
  refine ⟨?_, pyLookup_pyInsert_self _ _ _, fun k hk => pyLookup_pyInsert_of_ne hk _ _⟩
  unfold parse_message
  rw [htype, hts]
  simp [hrep]

/-- Witness for C2 (amended): a concrete replies-record at timestamp 3000
lands as a root with an empty thread dict while the unrelated entry at 1000
is untouched. -/
theorem claim2_witness :
    (claim2_record.type = some "message" ∧ claim2_record.ts = some 2000 ∧
     claim2_record.replies = true) ∧
    parse_message (fun _ => "") [] claim2_record
        [(1000, (⟨"other", [], []⟩, none))] =
      .ok ([(1000, (⟨"other", [], []⟩, none)),
            (2000, (⟨"`` **1** root", [], []⟩, some []))], []) := by
  refine ⟨⟨rfl, rfl, rfl⟩, ?_⟩
  have h := (claim2_replies_placement (fun _ => "") [] claim2_record
    [(1000, (⟨"other", [], []⟩, none))] 2000 rfl rfl rfl).1
  rw [h]
  rfl

/-- C3: for every record that declares a reply-to timestamp not present in
the channel dict, processing appends exactly one synthetic root entry at the
referenced timestamp, whose text is the formatted placeholder and whose
thread dict holds exactly that one reply keyed by the reply's own timestamp;
every other entry is unchanged (the new binding is appended, so the rest of
the dict is literally the same list); the function returns `.ok` (no error)
and logs the synthetic-thread warning. -/
theorem claim3_synthetic_root (fmt : Timestamp → String)
    (users : List (String × String)) (message : SlackRecord) (d : ChannelMsgs)
    (ts tts : Timestamp) (htype : message.type = some "message")
    (hts : message.ts = some ts) (hrep : message.replies = false)
    (hth : message.thread_ts = some tts) (habsent : pyLookup tts d = none) :
    parse_message fmt users message d =
      .ok (d ++ [(tts, (⟨format_message fmt tts none syntheticRootBody, [], []⟩,
                  some [(ts, (build_parsed_message fmt users message ts).1)]))],
           (build_parsed_message fmt users message ts).2
             ++ [ParseWarning.syntheticThread tts ts]) ∧
    pyLookup tts (d ++ [(tts, (⟨format_message fmt tts none syntheticRootBody, [], []⟩,
        some [(ts, (build_parsed_message fmt users message ts).1)]))]) =
      some (⟨format_message fmt tts none syntheticRootBody, [], []⟩,
        some [(ts, (build_parsed_message fmt users message ts).1)]) ∧
    (∀ k, k ≠ tts →
      pyLookup k (d ++ [(tts, (⟨format_message fmt tts none syntheticRootBody, [], []⟩,
        some [(ts, (build_parsed_message fmt users message ts).1)]))]) = pyLookup k d) := by
  have hnot : tts ∉ pyKeys d := (pyLookup_eq_none tts d).mp habsent
  have hins := pyInsert_of_not_mem hnot
    ((⟨format_message fmt tts none syntheticRootBody, [], []⟩ : ParsedMessage),
      some ([(ts, (build_parsed_message fmt users message ts).1)] : ThreadMap))
  refine ⟨?_, ?_, ?_⟩
  · unfold parse_message
    rw [htype, hts]
    simp only [hrep, hth, habsent, Bool.false_eq_true, if_false]
    rw [← hins]
    rfl
  · rw [← hins]
    exact pyLookup_pyInsert_self _ _ _
  · intro k hk
    rw [← hins]
    exact pyLookup_pyInsert_of_ne hk _ _

/-- Witness for C3: the concrete orphan reply produces exactly the appended
synthetic root with the placeholder text and the one-reply thread dict, and
the synthetic-thread warning. -/
theorem claim3_witness :
    pyLookup (1500 : ℚ) claim3_example_dict = none ∧
    parse_message (fun _ => "") [] claim3_record claim3_example_dict =
      .ok (claim3_example_dict ++
            [(1500, (⟨"`` _Unable to find start of exported thread_", [], []⟩,
                     some [(1501, ⟨"`` **2** hi", [], []⟩)]))],
           [ParseWarning.syntheticThread 1500 1501]) := by
  refine ⟨by decide, ?_⟩
  have h := (claim3_synthetic_root (fun _ => "") [] claim3_record claim3_example_dict
    1501 1500 rfl rfl rfl rfl (by decide)).1
  rw [h]
  rfl

theorem discord_retry_from_result {α : Type} (k : ℕ) (fs : List DiscordErr) (s : α) :
    (discord_retry_from k fs s).result = s := by
  induction fs generalizing k with
  | nil => rfl
  | cons e fs ih => simp [discord_retry_from, ih]

theorem discord_retry_from_calls {α : Type} (k : ℕ) (fs : List DiscordErr) (s : α) :
    (discord_retry_from k fs s).calls = fs.length + 1 := by
  induction fs generalizing k with
  | nil => rfl
  | cons e fs ih => simp [discord_retry_from, ih]

theorem discord_retry_from_waits {α : Type} (k : ℕ) (fs : List DiscordErr) (s : α) :
    (discord_retry_from k fs s).waits =
      fs.mapIdx (fun i e => retry_wait (k + i + 1) e) := by
  induction fs generalizing k with
  | nil => rfl
  | cons e fs ih =>
    simp only [discord_retry_from, ih (k + 1), List.mapIdx_cons, Nat.add_zero]
    have hfun : (fun i (e2 : DiscordErr) => retry_wait (k + 1 + i + 1) e2) =
        (fun i (e2 : DiscordErr) => retry_wait (k + (i + 1) + 1) e2) := by
      funext i e2
      have harith : k + 1 + i + 1 = k + (i + 1) + 1 := by omega
      rw [harith]
    rw [hfun]

/-- C4: the retry policy classifies each failure as rate-limit (waiting the
server-supplied duration) or other-transient (waiting the n-th backoff step
on the n-th consecutive failure, capped at the longest step), then retries
the identical call.  Run against any script of failures followed by a
success: the wrapped call is attempted once per failure plus one final
successful attempt whose result is returned, and the waits performed are
exactly the per-failure classification.  In particular two generic failures
then success perform exactly the first two backoff waits (1 s then 5 s) and
yield one successful post. -/
theorem claim4_retry_policy :
    (∀ (α : Type) (failures : List DiscordErr) (s : α),
      (discord_retry failures s).result = s ∧
      (discord_retry failures s).calls = failures.length + 1 ∧
      (discord_retry failures s).waits =
        failures.mapIdx (fun i e => retry_wait (i + 1) e)) ∧
    (∀ (n : ℕ) (r : ℚ), retry_wait n (DiscordErr.rateLimited r) = r) ∧
    (retry_wait 1 DiscordErr.other = 1 ∧ retry_wait 2 DiscordErr.other = 5 ∧
     retry_wait 3 DiscordErr.other = 30 ∧ retry_wait 1 DiscordErr.http = 1 ∧
     retry_wait 2 DiscordErr.http = 5 ∧ retry_wait 3 DiscordErr.http = 30) ∧
    (∀ n : ℕ, retry_backoff.length ≤ n →
      retry_wait n DiscordErr.other = 30 ∧ retry_wait n DiscordErr.http = 30) ∧
    (∀ (α : Type) (s : α),
      discord_retry [DiscordErr.other, DiscordErr.other] s = ⟨3, [1, 5], s⟩) := by
  refine ⟨?_, fun n r => rfl, ⟨rfl, rfl, rfl, rfl, rfl, rfl⟩, ?_, fun α s => rfl⟩
  · intro α failures s
    refine ⟨discord_retry_from_result 0 failures s, discord_retry_from_calls 0 failures s, ?_⟩
    have h := discord_retry_from_waits 0 failures s
    simpa using h
  · intro n hn
    have hlen : retry_backoff.length = 3 := rfl
    have hmin : min (n - 1) (retry_backoff.length - 1) = 2 := by
      rw [hlen] at hn
      rw [hlen]
      omega
    constructor <;> · simp only [retry_wait, hmin]
                      rfl

/-- Witness for C4: the cap applies from the fourth consecutive generic
failure on (here the fifth wait is still 30 s), and the two-failure scenario
performs exactly the waits [1, 5] with three calls and the result returned. -/
theorem claim4_witness :
    retry_backoff.length ≤ 5 ∧ retry_wait 5 DiscordErr.other = 30 ∧
    discord_retry [DiscordErr.other, DiscordErr.other] (7 : ℕ) = ⟨3, [1, 5], 7⟩ := by
  refine ⟨by decide, (claim4_retry_policy.2.2.2.1 5 (by decide)).1, ?_⟩
  exact claim4_retry_policy.2.2.2.2 ℕ 7

/-- Counterexample for C5: the claim characterizes the validator as
accepting only strings of *lowercase* letters, digits, hyphen and
underscore, but the repository's own test suite asserts that this name
containing uppercase letters passes validation, so the lowercase-only "if
and only if" is false of the program. -/
theorem claim5_counterexample :
    "ABCDEFGHIJKLMNOPQRSTUVWXYZabcdefghijklmnopqrstuvwxyz1234567890-_" ∈
      test_valid_channel_names ∧
    valid_channel_name
      "ABCDEFGHIJKLMNOPQRSTUVWXYZabcdefghijklmnopqrstuvwxyz1234567890-_" = true ∧
    ¬ (∀ c ∈ "ABCDEFGHIJKLMNOPQRSTUVWXYZabcdefghijklmnopqrstuvwxyz1234567890-_".data,
        lowercase_channel_name_char c = true) := by
  refine ⟨by decide, by decide, by decide⟩

/-- C5 (amended): the destination-channel-name validator accepts a string
if and only if it is 1-100 characters drawn from letters (either case),
digits, hyphen and underscore with no two consecutive hyphens; it accepts
every name the repository's tests call valid (including "general",
"foo-bar" and a 100-character name) and rejects every name they call
invalid (including "", "foo--bar", "foo#bar" and a 101-character name). -/
theorem claim5_channel_name_validation :
    (∀ s : String, valid_channel_name s = true ↔
      (1 ≤ s.length ∧ s.length ≤ 100 ∧
        (∀ c ∈ s.data, ('a' ≤ c ∧ c ≤ 'z') ∨ ('A' ≤ c ∧ c ≤ 'Z') ∨
          ('0' ≤ c ∧ c ≤ '9') ∨ c = '-' ∨ c = '_') ∧
        hasDoubleHyphen s.data = false)) ∧
    test_valid_channel_names.all valid_channel_name = true ∧
    test_invalid_channel_names.all (fun s => !valid_channel_name s) = true := by
  refine ⟨fun s => ?_, by decide, by decide⟩
  unfold valid_channel_name
  simp only [Bool.and_eq_true, decide_eq_true_eq, List.all_eq_true, Bool.or_eq_true,
    Bool.not_eq_true']
  constructor
  · rintro ⟨⟨⟨h1, h2⟩, h3⟩, h4⟩
    refine ⟨h1, h2, fun c hc => ?_, h4⟩
    have hcc := h3 c hc
    tauto
  · rintro ⟨h1, h2, h3, h4⟩
    refine ⟨⟨⟨h1, h2⟩, fun c hc => ?_⟩, h4⟩
    have hcc := h3 c hc
    tauto

/-- Counterexample for C6: with two text channels of the same name, channel
resolution does not warn and pick the first — it fails (the source logs an
error and raises; as written the f-string itself also references an unbound
variable, an error either way). -/
theorem claim6_counterexample :
    get_channel_by_name (fun n => ⟨n, 99⟩) [⟨"general", 1⟩, ⟨"general", 2⟩]
      "general" false false =
      .error "Found multiple Discord channels with the same name" ∧
    get_channel_by_name (fun n => ⟨n, 99⟩) [⟨"general", 1⟩, ⟨"general", 2⟩]
      "general" false false ≠ .ok (some ⟨"general", 1⟩) := by
  exact ⟨rfl, fun h => Except.noConfusion h⟩

/-- C6 (amended): channel resolution searches the server's text channels for
an exact name match; zero matches is fatal when creation is disabled and
creates the channel when enabled (returning nothing in a dry run); exactly
one match returns it; multiple matches are fatal (an error is raised), not
resolved by picking the first. -/
theorem claim6_channel_resolution (fresh : String → TextChannel)
    (text_channels : List TextChannel) (channel_name : String)
    (create dry_run : Bool) :
    (text_channels.filter (fun c => c.name = channel_name) = [] → create = false →
      get_channel_by_name fresh text_channels channel_name create dry_run =
        .error ("Unable to find Discord channel " ++ channel_name
          ++ ", use --create to auto create")) ∧
    (text_channels.filter (fun c => c.name = channel_name) = [] → create = true →
      dry_run = true →
      get_channel_by_name fresh text_channels channel_name create dry_run = .ok none) ∧
    (text_channels.filter (fun c => c.name = channel_name) = [] → create = true →
      dry_run = false →
      get_channel_by_name fresh text_channels channel_name create dry_run =
        .ok (some (fresh channel_name))) ∧
    (∀ c, text_channels.filter (fun c2 => c2.name = channel_name) = [c] →
      get_channel_by_name fresh text_channels channel_name create dry_run =
        .ok (some c)) ∧
    (∀ c1 c2 rest, text_channels.filter (fun c => c.name = channel_name) =
        c1 :: c2 :: rest →
      get_channel_by_name fresh text_channels channel_name create dry_run =
        .error "Found multiple Discord channels with the same name") := by
  refine ⟨?_, ?_, ?_, ?_, ?_⟩
  · intro h hc
    unfold get_channel_by_name
    rw [h, hc]
    rfl
  · intro h hc hd
    unfold get_channel_by_name
    rw [h, hc, hd]
    rfl
  · intro h hc hd
    unfold get_channel_by_name
    rw [h, hc, hd]
    rfl
  · intro c h
    unfold get_channel_by_name
    rw [h]
  · intro c1 c2 rest h
    unfold get_channel_by_name
    rw [h]

/-- Witness for C6 (amended): concrete instances of the four behaviours —
a unique match is returned, a missing channel without creation is an error,
a missing channel with creation in a dry run yields nothing, and a
duplicate name is an error. -/
theorem claim6_witness :
    (([⟨"general", 1⟩] : List TextChannel).filter (fun c => c.name = "general") =
      [⟨"general", 1⟩] ∧
     get_channel_by_name (fun n => ⟨n, 0⟩) [⟨"general", 1⟩] "general" false false =
       .ok (some ⟨"general", 1⟩)) ∧
    (([] : List TextChannel).filter (fun c => c.name = "random") = [] ∧
     get_channel_by_name (fun n => ⟨n, 0⟩) [] "random" false false =
       .error ("Unable to find Discord channel " ++ "random"
         ++ ", use --create to auto create")) ∧
    get_channel_by_name (fun n => ⟨n, 0⟩) [] "random" true true = .ok none := by
  refine ⟨⟨by decide, ?_⟩, ⟨by decide, ?_⟩, ?_⟩
  · exact (claim6_channel_resolution (fun n => ⟨n, 0⟩) [⟨"general", 1⟩] "general"
      false false).2.2.2.1 ⟨"general", 1⟩ (by decide)
  · exact (claim6_channel_resolution (fun n => ⟨n, 0⟩) [] "random" false false).1
      (by decide) rfl
  · exact (claim6_channel_resolution (fun n => ⟨n, 0⟩) [] "random" true true).2.1
      (by decide) rfl rfl

/-- C7: display-name resolution tries, in order, the previously-loaded user
directory keyed by sender id, then the record-embedded display name, then
the record-embedded full name, then the sender id with the fixed
one-character prefix stripped, and finally the placeholder; the code's
cascade coincides with the spec's fallback chain on every input, and both
are total — a string is always returned and no error is ever raised. -/
theorem truthy_eq_true {o : Option String} (h : truthy o = true) :
    ∃ s, o = some s ∧ s ≠ "" := by
  cases o with
  | none => cases h
  | some s => exact ⟨s, rfl, by simpa [truthy] using h⟩

theorem claim7_name_resolution (users : List (String × String))
    (message : SlackRecord) :
    get_name users message = get_name_spec users message := by
  unfold get_name get_name_spec
  rcases hu : message.user with _ | uid <;>
    rcases hp : message.user_profile with _ | p <;>
    simp only [hu, hp, Option.bind_none, Option.bind_some]
  · rfl
  · cases hd : truthy p.display_name
    · cases hr : truthy p.real_name
      · simp [hd, hr, Option.or]
      · obtain ⟨rn, hrn, hne⟩ := truthy_eq_true hr
        have hrt : truthy (some rn) = true := by simp [truthy, hne]
        simp [hd, hrn, hrt, Option.or]
    · obtain ⟨dn, hdn, hne⟩ := truthy_eq_true hd
      have hdt : truthy (some dn) = true := by simp [truthy, hne]
      simp [hdn, hdt, Option.or]
  · cases hl : pyLookup uid users
    · by_cases h0 : uid = ""
      · subst h0
        simp [hl, Option.or]
      · simp [hl, h0, Option.or]
    · simp [hl, Option.or]
  · cases hl : pyLookup uid users
    · cases hd : truthy p.display_name
      · cases hr : truthy p.real_name
        · by_cases h0 : uid = ""
          · subst h0
            simp [hl, hd, hr, Option.or]
          · simp [hl, hd, hr, h0, Option.or]
        · obtain ⟨rn, hrn, hne⟩ := truthy_eq_true hr
          have hrt : truthy (some rn) = true := by simp [truthy, hne]
          simp [hl, hd, hrn, hrt, Option.or]
      · obtain ⟨dn, hdn, hne⟩ := truthy_eq_true hd
        have hdt : truthy (some dn) = true := by simp [truthy, hne]
        simp [hl, hdn, hdt, Option.or]
    · simp [hl, Option.or]

/-- C8: the markdown transform rewrites single-delimiter bold and
strikethrough markers to double-delimiter form: `*hello*` becomes
`**hello**` and `~bye~` becomes `~~bye~~`. -/
theorem claim8_markdown_examples :
    fix_markdown (some "*hello*") = some "**hello**" ∧
    fix_markdown (some "~bye~") = some "~~bye~~" := by
  exact ⟨by decide, by decide⟩

/-- C9: building the send payload derives at most `MAX_DISCORD_EMBEDS` (10)
previews: no links yields an absent embed list; a non-empty link list is
mapped link-for-link into embeds, truncated to the first 10 in source order
(with the warning logged exactly when there are more than 10); when there
are at most 10 links every link becomes an embed. -/
theorem claim9_embeds (pm : ParsedMessage) :
    ((get_discord_send_kwargs pm).1.content = pm.text) ∧
    (pm.links = [] →
      (get_discord_send_kwargs pm).1.embeds = none ∧
      (get_discord_send_kwargs pm).2 = false) ∧
    (pm.links ≠ [] →
      (get_discord_send_kwargs pm).1.embeds =
        some ((pm.links.take MAX_DISCORD_EMBEDS).map embed_of_link)) ∧
    (∀ es, (get_discord_send_kwargs pm).1.embeds = some es →
      es.length ≤ MAX_DISCORD_EMBEDS) ∧
    (pm.links ≠ [] → pm.links.length ≤ MAX_DISCORD_EMBEDS →
      (get_discord_send_kwargs pm).1.embeds = some (pm.links.map embed_of_link)) ∧
    ((get_discord_send_kwargs pm).2 = true ↔ MAX_DISCORD_EMBEDS < pm.links.length) := by
  have htake : pm.links.take (min pm.links.length MAX_DISCORD_EMBEDS) =
      pm.links.take MAX_DISCORD_EMBEDS := by
    rcases le_total pm.links.length MAX_DISCORD_EMBEDS with h | h
    · rw [min_eq_left h, List.take_length, List.take_of_length_le h]
    · rw [min_eq_right h]
  by_cases hl : pm.links = []
  · refine ⟨by simp [get_discord_send_kwargs, hl], fun _ => by simp [get_discord_send_kwargs, hl],
      fun h => absurd hl h, ?_, fun h => absurd hl h, ?_⟩
    · intro es hes
      simp [get_discord_send_kwargs, hl] at hes
    · simp [get_discord_send_kwargs, hl, MAX_DISCORD_EMBEDS]
  · refine ⟨by simp [get_discord_send_kwargs, hl], fun h => absurd h hl,
      fun _ => by simp [get_discord_send_kwargs, hl, htake], ?_, ?_, ?_⟩
    · intro es hes
      simp only [get_discord_send_kwargs, hl, if_pos, ne_eq, not_false_iff, if_true] at hes
      have h2 : es = (pm.links.take (min pm.links.length MAX_DISCORD_EMBEDS)).map
          embed_of_link := by
        simpa using hes.symm
      rw [h2, List.length_map, htake, List.length_take]
      exact min_le_left _ _
    · intro _ hlen
      simp only [get_discord_send_kwargs, hl, ne_eq, not_false_iff, if_true]
      rw [htake, List.take_of_length_le hlen]
    · simp [get_discord_send_kwargs, hl]

/-- Witness for C9: with eleven links the embed list is the first ten links
mapped in order, and the truncation warning fires. -/
theorem claim9_witness :
    claim9_example_message.links ≠ [] ∧
    (get_discord_send_kwargs claim9_example_message).1.embeds =
      some ((claim9_example_message.links.take MAX_DISCORD_EMBEDS).map embed_of_link) ∧
    (get_discord_send_kwargs claim9_example_message).2 = true ∧
    ((claim9_example_message.links.take MAX_DISCORD_EMBEDS).map embed_of_link).length
      = 10 := by
  refine ⟨by decide, (claim9_embeds claim9_example_message).2.2.1 (by decide), ?_, by decide⟩
  exact (claim9_embeds claim9_example_message).2.2.2.2.2.mpr (by decide)

/-- C10: the HTML-entity un-escape applies its three substitutions
sequentially over the whole string — ampersand first, then less-than, then
greater-than — so the doubly-escaped `&amp;lt;` is unescaped twice, to `<`
and not to `&lt;`. -/
theorem claim10_double_unescape :
    (∀ text : String, unescape_text (some text) =
      some (pySubLiteral "&gt;" ">" (pySubLiteral "&lt;" "<"
        (pySubLiteral "&amp;" "&" text)))) ∧
    unescape_text (some "&amp;lt;") = some "<" ∧
    unescape_text (some "&amp;lt;") ≠ some "&lt;" := by
  refine ⟨fun text => rfl, by decide, by decide⟩

end Slack2Discord
